import Mathlib

/-!
Verification of the canonical transcoding / presentation / HTTP-contract core
of the `cli` repository (file `src/commands/mod.rs`), via a shallow embedding.

Modelling conventions:
* `serde_json::Value` (and the YAML document tree, which has the same shape for
  the documents this program produces) is the inductive `Json`, with numbers as
  exact rationals.
* The network is external: each HTTP verb helper is embedded as a function of
  the response status code and of the result that `serde_json::from_str` would
  produce on the response body (`Option Json`: `some v` when the body parses to
  `v`, `none` when parsing fails).
* `f64` wire values are `WireFloat`: an exact rational for finite values, plus
  the non-finite IEEE-754 points. Rust `as u32` on `f64` truncates toward zero
  and saturates, with NaN mapped to 0.
* Rust `HashMap` iteration order is arbitrary, so map-consuming functions are
  embedded on association lists and quantified over permutations.
* `sort_by_key(|s| s.title.clone())` is a stable comparison sort on the title
  key; it is embedded as a stable insertion sort (`sortByTitle`), which is
  extensionally equal to any stable sort on the same key.
-/

/-- The JSON / YAML document tree (`serde_json::Value`); object entries keep
their textual order, numbers are exact rationals. -/
inductive Json where
  | null
  | bool (b : Bool)
  | num (q : ℚ)
  | str (s : String)
  | arr (elems : List Json)
  | obj (entries : List (String × Json))

/-- Key lookup among the entries of a JSON object (first match). -/
def jLookup : List (String × Json) → String → Option Json
  | [], _ => none
  | (k, v) :: rest, key => if k = key then some v else jLookup rest key

/-- Rust `v[field]` on a `serde_json::Value`: the value at the key of an
object, and `Null` for a missing key or a non-object. -/
def jIndex (v : Json) (key : String) : Json :=
  match v with
  | .obj entries => (jLookup entries key).getD .null
  | _ => .null

/-- Field lookup inside a JSON value, `none` when absent or not an object. -/
def jGet (v : Json) (key : String) : Option Json :=
  match v with
  | .obj entries => jLookup entries key
  | _ => none

/-- Rust `Value::as_str`: `some` exactly on JSON strings. -/
def asString : Json → Option String
  | .str s => some s
  | _ => none

/-- Outcome of a body-returning HTTP helper, restricted to the classification
the claims are about: success with a JSON value, `CommandError::WrongResponseStatus`
with the exact numeric code, or `CommandError::Parse` from `serde_json`. -/
inductive HttpResult where
  | ok (v : Json)
  | wrongStatus (code : Nat)
  | parseError

/-- Outcome of the `delete` helper, which returns no value on success. -/
inductive DeleteResult where
  | ok
  | wrongStatus (code : Nat)

/-- The `get` helper (src/commands/mod.rs lines 106-127): any status other than 200 is
`WrongResponseStatus(status)`; on 200 the body is parsed as JSON, a parse
failure is a `Parse` error. -/
def get (status : Nat) (parsed : Option Json) : HttpResult :=
  if status ≠ 200 then .wrongStatus status
  else
    match parsed with
    | some v => .ok v
    | none => .parseError

/-- The `post` helper (lines 129-157): statuses 201 (CREATED), 200 (OK), 204 (NO_CONTENT)
are accepted in the source's order, any other status is
`WrongResponseStatus(status)`; 204 returns `Value::Null` without touching the
body; otherwise the body is parsed, a parse failure is a `Parse` error. -/
def post (status : Nat) (parsed : Option Json) : HttpResult :=
  if ¬(status = 201 ∨ status = 200 ∨ status = 204) then .wrongStatus status
  else if status = 204 then .ok .null
  else
    match parsed with
    | some v => .ok v
    | none => .parseError

/-- The `delete` helper (lines 159-168): statuses 200 and 204 succeed with no value, any
other status is `WrongResponseStatus(status)`. -/
def delete (status : Nat) : DeleteResult :=
  if ¬(status = 200 ∨ status = 204) then .wrongStatus status
  else .ok

/-- The `patch` helper (lines 170-200), with the source's exact control flow: first any
status other than 200 returns `WrongResponseStatus(status)`; then a (therefore
unreachable) check maps 204 to `Value::Null`; finally the body is parsed and a
parse failure degrades to `Value::Null` instead of an error. -/
def patch (status : Nat) (parsed : Option Json) : HttpResult :=
  if status ≠ 200 then .wrongStatus status
  else if status = 204 then .ok .null
  else
    match parsed with
    | some v => .ok v
    | none => .ok .null

/-- The `Setting` record (lines 219-229). Field order is the Rust declaration
order; `type_` is serialized under the key `"type"`; `default_value` and
`title` carry `#[serde(default)]` (deserialization only). -/
structure Setting where
  type_ : String
  default_value : String
  title : String
  optional : Bool
  help_text : String
  deriving DecidableEq

/-- The derived `Serialize` of `Setting`: all five fields are emitted, in
declaration order, `title` included (it has no skip attribute). -/
def settingToJson (s : Setting) : Json :=
  .obj [("type", .str s.type_), ("default_value", .str s.default_value),
        ("title", .str s.title), ("optional", .bool s.optional),
        ("help_text", .str s.help_text)]

/-- The encoder `serialize_settings` (lines 247-258): one map entry per setting, keyed by
its title, the value being the full derived serialization of the setting. -/
def serialize_settings (settings : List Setting) : List (String × Json) :=
  settings.map fun s => (s.title, settingToJson s)

/-- The derived `Deserialize` of `Setting`: `type`, `optional`, `help_text`
are required, `default_value` and `title` default to the empty string; each
present field must have the right JSON type; unknown fields are ignored. -/
def decodeSetting (j : Json) : Option Setting :=
  match j with
  | .obj entries =>
    match jLookup entries "type", jLookup entries "optional",
          jLookup entries "help_text" with
    | some (.str t), some (.bool o), some (.str h) =>
      match (jLookup entries "default_value").getD (.str ""),
            (jLookup entries "title").getD (.str "") with
      | .str dv, .str ti => some ⟨t, dv, ti, o, h⟩
      | _, _ => none
    | _, _, _ => none
  | _ => none

/-- Insert a setting into a title-sorted list, before the first element whose
title is not smaller: the insertion step of a stable sort on the title key. -/
def insertSorted (s : Setting) : List Setting → List Setting
  | [] => [s]
  | t :: ts => if s.title ≤ t.title then s :: t :: ts else t :: insertSorted s ts

/-- Stable sort on the title key, embedding `sort_by_key(|s| s.title.clone())`
(any two stable comparison sorts on the same key are extensionally equal). -/
def sortByTitle : List Setting → List Setting
  | [] => []
  | s :: ss => insertSorted s (sortByTitle ss)

/-- Key injection step of `deserialize_settings` (lines 236-242): the map key
overwrites the record's title field. -/
def injectTitle (p : String × Setting) : Setting :=
  { p.2 with title := p.1 }

/-- The decoder `deserialize_settings` (lines 231-245) after the `HashMap` has been built:
inject each key into its record's title, then sort by title. The input list is
one iteration order of the map. -/
def deserialize_settings (entries : List (String × Setting)) : List Setting :=
  sortByTitle (entries.map injectTitle)

/-- Element-wise decoding of a settings map's values into `Setting` records
(the `HashMap<String, Setting>` deserialization step): fails if any value
fails to decode. -/
def decodeSettingsMap : List (String × Json) → Option (List (String × Setting))
  | [] => some []
  | (k, v) :: rest =>
    match decodeSetting v, decodeSettingsMap rest with
    | some s, some tail => some ((k, s) :: tail)
    | _, _ => none

/-- The complete wire-to-memory direction for the settings field: decode each
map value, inject the keys as titles, sort by title. -/
def deserializeSettingsDoc (entries : List (String × Json)) : Option (List Setting) :=
  (decodeSettingsMap entries).map deserialize_settings

/-- The `EdgeAppManifest` record (lines 202-216). -/
structure EdgeAppManifest where
  app_id : String
  user_version : String
  description : String
  icon : String
  author : String
  homepage_url : String
  settings : List Setting
  deriving DecidableEq

/-- The derived `Serialize` of `EdgeAppManifest`: fields in declaration order,
the settings field through `serialize_settings`. -/
def encodeManifest (m : EdgeAppManifest) : Json :=
  .obj [("app_id", .str m.app_id), ("user_version", .str m.user_version),
        ("description", .str m.description), ("icon", .str m.icon),
        ("author", .str m.author), ("homepage_url", .str m.homepage_url),
        ("settings", .obj (serialize_settings m.settings))]

/-- The derived `Deserialize` of `EdgeAppManifest`: the six string fields are
required, `settings` defaults to the empty sequence when absent and goes
through `deserialize_settings` when present. -/
def decodeManifest (j : Json) : Option EdgeAppManifest :=
  match j with
  | .obj entries =>
    match jLookup entries "app_id", jLookup entries "user_version",
          jLookup entries "description", jLookup entries "icon",
          jLookup entries "author", jLookup entries "homepage_url" with
    | some (.str a), some (.str uv), some (.str d), some (.str ic),
      some (.str au), some (.str hp) =>
      match jLookup entries "settings" with
      | none => some ⟨a, uv, d, ic, au, hp, []⟩
      | some (.obj sEntries) =>
        match deserializeSettingsDoc sEntries with
        | some st => some ⟨a, uv, d, ic, au, hp, st⟩
        | none => none
      | some _ => none
    | _, _, _, _, _, _ => none
  | _ => none

/-- The manifest file produced by `save_to_file` (lines 267-272), at the
document level: the `serde_yaml` text layer is modeled as the identity on the
document tree, and the explicit `---` document-start marker line the code
prepends is recorded as a flag. -/
structure ManifestFile where
  hasDocStartMarker : Bool
  doc : Json

/-- Save, `EdgeAppManifest::save_to_file`: serialize the manifest and prepend the
document-start marker line. -/
def save_to_file (m : EdgeAppManifest) : ManifestFile :=
  ⟨true, encodeManifest m⟩

/-- Load, `EdgeAppManifest::new` (lines 261-265): read the file and decode the
document (a leading document-start marker is accepted by the YAML reader). -/
def load_from_file (f : ManifestFile) : Option EdgeAppManifest :=
  decodeManifest f.doc

/-- An `f64` wire value: an exact rational for finite values, plus the
non-finite IEEE-754 points. -/
inductive WireFloat where
  | finite (q : ℚ)
  | nan
  | posInf
  | negInf

/-- The coercion `deserialize_float_to_u32` (lines 288-294): the Rust `as u32` cast on the
deserialized `f64`, which truncates toward zero and saturates to
`[0, 4294967295]`, with NaN mapped to 0. For a finite value `q`,
`⌊q⌋.toNat` is 0 for negative `q` and the truncation toward zero otherwise. -/
def deserialize_float_to_u32 : WireFloat → Nat
  | .finite q => min (Int.toNat ⌊q⌋) 4294967295
  | .nan => 0
  | .posInf => 4294967295
  | .negInf => 0

/-- The row construction of the `HumanReadable`
arm of `format_value` (lines 40-74): one row per element of the array (no rows
when the value is not an array), one cell per requested field; each cell comes
from the transformer when one is supplied, else from `v[field].as_str()` with
`"N/A"` substituted when that is not a string. -/
def format_value_rows (field_names : List String)
    (value_transformer : Option (String → Json → String)) (value : Json) :
    List (List String) :=
  match value with
  | .arr values =>
    values.map fun v =>
      field_names.map fun field =>
        match value_transformer with
        | some transformer => transformer field (jIndex v field)
        | none => (asString (jIndex v field)).getD "N/A"
  | _ => []

/-! ### Helper lemmas -/

/-- Decoding the derived serialization of a setting recovers the setting. -/
lemma decodeSetting_settingToJson (s : Setting) :
    decodeSetting (settingToJson s) = some s := rfl

/-- Element-wise characterization of `decodeSettingsMap` when every value
decodes. -/
lemma decodeSettingsMap_eq (l : List (String × Json)) (f : String × Json → Setting)
    (h : ∀ p ∈ l, decodeSetting p.2 = some (f p)) :
    decodeSettingsMap l = some (l.map fun p => (p.1, f p)) := by
  induction l with
  | nil => rfl
  | cons p rest ih =>
    obtain ⟨k, v⟩ := p
    have h1 := h (k, v) (List.mem_cons_self _ _)
    have h2 := ih fun q hq => h q (List.mem_cons_of_mem _ hq)
    simp only [decodeSettingsMap, h1, h2, List.map_cons]

lemma insertSorted_perm (s : Setting) : ∀ l : List Setting, (insertSorted s l).Perm (s :: l)
  | [] => List.Perm.refl _
  | t :: ts => by
    rw [insertSorted]
    split
    · exact List.Perm.refl _
    · exact (List.Perm.cons t (insertSorted_perm s ts)).trans (List.Perm.swap s t ts)

lemma insertSorted_pairwise (s : Setting) {l : List Setting}
    (h : l.Pairwise fun a b => a.title ≤ b.title) :
    (insertSorted s l).Pairwise fun a b => a.title ≤ b.title := by
  induction l with
  | nil => simp [insertSorted]
  | cons t ts ih =>
    rw [List.pairwise_cons] at h
    obtain ⟨ht, hts⟩ := h
    rw [insertSorted]
    split
    case isTrue hle =>
      refine List.pairwise_cons.mpr ⟨?_, List.pairwise_cons.mpr ⟨ht, hts⟩⟩
      intro x hx
      rcases List.mem_cons.mp hx with rfl | hx'
      · exact hle
      · exact le_trans hle (ht x hx')
    case isFalse hgt =>
      refine List.pairwise_cons.mpr ⟨?_, ih hts⟩
      intro x hx
      rcases List.mem_cons.mp ((insertSorted_perm s ts).mem_iff.mp hx) with rfl | hx'
      · exact le_of_not_le hgt
      · exact ht x hx'

lemma sortByTitle_perm : ∀ l : List Setting, (sortByTitle l).Perm l
  | [] => List.Perm.refl _
  | s :: ss => (insertSorted_perm s (sortByTitle ss)).trans (List.Perm.cons s (sortByTitle_perm ss))

lemma sortByTitle_pairwise : ∀ l : List Setting, (sortByTitle l).Pairwise fun a b => a.title ≤ b.title
  | [] => List.Pairwise.nil
  | s :: ss => insertSorted_pairwise s (sortByTitle_pairwise ss)

lemma sortByTitle_eq_of_pairwise {l : List Setting}
    (h : l.Pairwise fun a b => a.title ≤ b.title) : sortByTitle l = l := by
  induction l with
  | nil => rfl
  | cons s ss ih =>
    rw [List.pairwise_cons] at h
    obtain ⟨hs, hss⟩ := h
    show insertSorted s (sortByTitle ss) = s :: ss
    rw [ih hss]
    cases ss with
    | nil => rfl
    | cons t ts => rw [insertSorted, if_pos (hs t (List.mem_cons_self t ts))]

lemma pairwise_lt_of_le_nodup {l : List Setting}
    (hle : l.Pairwise fun a b => a.title ≤ b.title)
    (hnd : (l.map Setting.title).Nodup) :
    l.Pairwise fun a b => a.title < b.title := by
  have hne : l.Pairwise fun a b => a.title ≠ b.title := List.pairwise_map.mp hnd
  exact (hle.and hne).imp fun h => lt_of_le_of_ne h.1 h.2

lemma sorted_unique {l₁ l₂ : List Setting} (hp : l₁.Perm l₂)
    (h₁ : l₁.Pairwise fun a b => a.title < b.title)
    (h₂ : l₂.Pairwise fun a b => a.title < b.title) : l₁ = l₂ := by
  letI : IsAntisymm Setting fun a b => a.title < b.title :=
    ⟨fun a b h h₂ => absurd h₂ (lt_asymm h)⟩
  exact List.eq_of_perm_of_sorted hp h₁ h₂

lemma deserialize_settings_eq_of_perm {l l' : List (String × Setting)}
    (hp : l.Perm l') (hnd : (l.map Prod.fst).Nodup) :
    deserialize_settings l = deserialize_settings l' := by
  have htitles : ∀ m : List (String × Setting), (m.map injectTitle).map Setting.title = m.map Prod.fst := by
    intro m
    rw [List.map_map]
    rfl
  have hnd₁ : ((sortByTitle (l.map injectTitle)).map Setting.title).Nodup := by
    refine (((sortByTitle_perm _).map Setting.title).nodup_iff).mpr ?_
    rw [htitles]
    exact hnd
  have hnd₂ : ((sortByTitle (l'.map injectTitle)).map Setting.title).Nodup := by
    refine (((sortByTitle_perm _).map Setting.title).nodup_iff).mpr ?_
    rw [htitles]
    exact ((hp.map Prod.fst).nodup_iff).mp hnd
  show sortByTitle (l.map injectTitle) = sortByTitle (l'.map injectTitle)
  refine sorted_unique ?_ ?_ ?_
  · exact (sortByTitle_perm _).trans ((hp.map injectTitle).trans (sortByTitle_perm _).symm)
  · exact pairwise_lt_of_le_nodup (sortByTitle_pairwise _) hnd₁
  · exact pairwise_lt_of_le_nodup (sortByTitle_pairwise _) hnd₂

lemma floor_of_twelve_point_nine : ⌊(129/10 : ℚ)⌋ = 12 := by
  rw [Int.floor_eq_iff]
  constructor
  · norm_num
  · norm_num

/-! ### Claim theorems -/

/-- C1 (code bug): the claim says a PATCH response status of 204 succeeds with
JSON null, but in the code the `status != 200` guard precedes the 204 check,
so a 204 PATCH response fails with `WrongResponseStatus(204)` regardless of
the body; the 204-to-null branch is unreachable. -/
theorem c1_patch_rejects_204 :
    patch 204 none = .wrongStatus 204 ∧
    patch 204 (some .null) = .wrongStatus 204 ∧
    patch 204 (some (.obj [])) = .wrongStatus 204 :=
  ⟨rfl, rfl, rfl⟩

/-- C2 counterexample: encoding the single setting titled "username" emits a
map value that does contain a `"title"` field (the full derived serialization
of the record), contradicting the claim that the title field is omitted from
every emitted map value. -/
theorem c2_counterexample_title_field_emitted :
    serialize_settings [⟨"string", "stranger", "username", true, "help"⟩] =
      [("username", .obj [("type", .str "string"), ("default_value", .str "stranger"),
        ("title", .str "username"), ("optional", .bool true), ("help_text", .str "help")])] ∧
    jGet (settingToJson ⟨"string", "stranger", "username", true, "help"⟩) "title" =
      some (.str "username") :=
  ⟨rfl, rfl⟩

/-- C2 (amended): the settings encoder emits one map entry per record, keyed
by the record's title, whose value is the record's full serialization — with
the title field included in the emitted value, equal to the key. -/
theorem c2_amended_encoder_emits_full_record (settings : List Setting) :
    (serialize_settings settings).map Prod.fst = settings.map Setting.title ∧
    ∀ p ∈ serialize_settings settings, ∃ s ∈ settings,
      p = (s.title, settingToJson s) ∧ jGet p.2 "title" = some (.str s.title) := by
  constructor
  · rw [serialize_settings, List.map_map]
    rfl
  · intro p hp
    obtain ⟨s, hs, rfl⟩ := List.mem_map.mp hp
    exact ⟨s, hs, rfl, rfl⟩

/-- Witness for C2 (amended) at a concrete one-element settings list. -/
theorem c2_amended_witness :
    ∃ s ∈ [(⟨"string", "", "a", false, "h"⟩ : Setting)],
      (("a", settingToJson ⟨"string", "", "a", false, "h"⟩) : String × Json) =
        (s.title, settingToJson s) ∧
      jGet (("a", settingToJson (⟨"string", "", "a", false, "h"⟩ : Setting)) :
        String × Json).2 "title" = some (.str s.title) :=
  (c2_amended_encoder_emits_full_record [⟨"string", "", "a", false, "h"⟩]).2
    ("a", settingToJson ⟨"string", "", "a", false, "h"⟩)
    (List.mem_singleton.mpr rfl)

/-- C3: for a settings sequence strictly sorted by title (sorted ascending
with pairwise-distinct titles), encoding to the map form and decoding any
iteration order of that map yields the original sequence. -/
theorem c3_settings_round_trip (settings : List Setting)
    (hsorted : settings.Pairwise fun a b => a.title < b.title)
    (l : List (String × Json)) (hperm : l.Perm (serialize_settings settings)) :
    deserializeSettingsDoc l = some settings := by
  have hdec : ∀ p ∈ l,
      decodeSetting p.2 = some ((decodeSetting p.2).getD ⟨"", "", "", false, ""⟩) := by
    intro p hp
    obtain ⟨s, _, rfl⟩ := List.mem_map.mp (hperm.mem_iff.mp hp)
    simp [decodeSetting_settingToJson]
  rw [deserializeSettingsDoc, decodeSettingsMap_eq l _ hdec]
  show some (deserialize_settings _) = some settings
  congr 1
  show sortByTitle (((l.map fun p =>
    (p.1, (decodeSetting p.2).getD ⟨"", "", "", false, ""⟩))).map injectTitle) = settings
  rw [List.map_map]
  have hperm2 : (l.map (injectTitle ∘ fun p =>
      (p.1, (decodeSetting p.2).getD ⟨"", "", "", false, ""⟩))).Perm settings := by
    refine (hperm.map _).trans ?_
    have hmap : (serialize_settings settings).map (injectTitle ∘ fun p =>
        (p.1, (decodeSetting p.2).getD ⟨"", "", "", false, ""⟩)) = settings := by
      rw [serialize_settings, List.map_map]
      have hpt : ∀ s ∈ settings, ((injectTitle ∘ fun p =>
          (p.1, (decodeSetting p.2).getD ⟨"", "", "", false, ""⟩)) ∘ fun s =>
          (s.title, settingToJson s)) s = id s := by
        intro s _
        simp [Function.comp, decodeSetting_settingToJson, injectTitle]
      rw [List.map_congr_left hpt, List.map_id]
    rw [hmap]
  have hnd : (settings.map Setting.title).Nodup :=
    (List.pairwise_map.mpr hsorted).imp fun h => ne_of_lt h
  refine sorted_unique ((sortByTitle_perm _).trans hperm2) ?_ hsorted
  refine pairwise_lt_of_le_nodup (sortByTitle_pairwise _) ?_
  exact ((((sortByTitle_perm _).trans hperm2).map Setting.title).nodup_iff).mpr hnd

/-- Witness for C3: a two-setting sequence, decoded from the reversed
iteration order of its encoding. -/
theorem c3_witness :
    deserializeSettingsDoc
      [("b", settingToJson ⟨"bool", "", "b", true, "hb"⟩),
       ("a", settingToJson ⟨"string", "sd", "a", false, "ha"⟩)] =
      some [⟨"string", "sd", "a", false, "ha"⟩, ⟨"bool", "", "b", true, "hb"⟩] :=
  c3_settings_round_trip
    [⟨"string", "sd", "a", false, "ha"⟩, ⟨"bool", "", "b", true, "hb"⟩]
    (by simp [String.lt_iff_toList_lt]; decide)
    [("b", settingToJson ⟨"bool", "", "b", true, "hb"⟩),
     ("a", settingToJson ⟨"string", "sd", "a", false, "ha"⟩)]
    (List.Perm.swap _ _ _)

/-- C4: GET succeeds with the parsed body exactly on status 200; POST accepts
200/201/204 with 204 yielding JSON null without a parse attempt; DELETE
accepts 200/204 and returns no value; for each verb every other status fails
with `WrongResponseStatus` carrying that exact code. -/
theorem c4_status_classification (status : Nat) (parsed : Option Json) :
    (status ≠ 200 → get status parsed = .wrongStatus status) ∧
    (∀ v, get 200 (some v) = .ok v) ∧
    (status = 204 → post status parsed = .ok .null) ∧
    ((status = 200 ∨ status = 201) → ∀ v, post status (some v) = .ok v) ∧
    (¬(status = 200 ∨ status = 201 ∨ status = 204) →
      post status parsed = .wrongStatus status) ∧
    ((status = 200 ∨ status = 204) → delete status = .ok) ∧
    (¬(status = 200 ∨ status = 204) → delete status = .wrongStatus status) := by
  refine ⟨?_, ?_, ?_, ?_, ?_, ?_, ?_⟩
  · intro h
    show (if status ≠ 200 then HttpResult.wrongStatus status
      else match parsed with
        | some v => HttpResult.ok v
        | none => HttpResult.parseError) = HttpResult.wrongStatus status
    rw [if_pos h]
  · intro v
    rfl
  · intro h
    subst h
    rfl
  · rintro (rfl | rfl) v <;> rfl
  · intro h
    have h' : ¬(status = 201 ∨ status = 200 ∨ status = 204) := by tauto
    show (if ¬(status = 201 ∨ status = 200 ∨ status = 204) then HttpResult.wrongStatus status
      else if status = 204 then HttpResult.ok .null
      else match parsed with
        | some v => HttpResult.ok v
        | none => HttpResult.parseError) = HttpResult.wrongStatus status
    rw [if_pos h']
  · rintro (rfl | rfl) <;> rfl
  · intro h
    show (if ¬(status = 200 ∨ status = 204) then DeleteResult.wrongStatus status
      else DeleteResult.ok) = DeleteResult.wrongStatus status
    rw [if_pos h]

/-- Witness for C4 at concrete statuses for each verb and branch. -/
theorem c4_witness :
    get 404 none = .wrongStatus 404 ∧ get 200 (some .null) = .ok .null ∧
    post 204 none = .ok .null ∧ post 201 (some (.bool true)) = .ok (.bool true) ∧
    post 500 none = .wrongStatus 500 ∧ delete 204 = .ok ∧
    delete 500 = .wrongStatus 500 :=
  ⟨(c4_status_classification 404 none).1 (by decide),
   (c4_status_classification 200 none).2.1 .null,
   (c4_status_classification 204 none).2.2.1 rfl,
   (c4_status_classification 201 none).2.2.2.1 (Or.inr rfl) (.bool true),
   (c4_status_classification 500 none).2.2.2.2.1 (by decide),
   (c4_status_classification 204 none).2.2.2.2.2.1 (Or.inr rfl),
   (c4_status_classification 500 none).2.2.2.2.2.2 (by decide)⟩

/-- C5: decoding a settings map (any iteration order of its entries) injects
each key into the record's title, returns the records sorted ascending by
title, and — for well-formed maps, whose keys are pairwise distinct — the
result is the same for every iteration order of the same entries. -/
theorem c5_decode_sorted_deterministic (entries : List (String × Setting)) :
    (deserialize_settings entries).Perm (entries.map injectTitle) ∧
    (∀ p ∈ entries, (injectTitle p).title = p.1) ∧
    (deserialize_settings entries).Pairwise (fun a b => a.title ≤ b.title) ∧
    ∀ l', l'.Perm entries → (entries.map Prod.fst).Nodup →
      deserialize_settings l' = deserialize_settings entries := by
  refine ⟨sortByTitle_perm _, fun p _ => rfl, sortByTitle_pairwise _, ?_⟩
  intro l' hp hnd
  exact deserialize_settings_eq_of_perm hp (((hp.map Prod.fst).nodup_iff).mpr hnd)

/-- Witness for C5: two iteration orders of the same two-entry map decode to
the same sequence. -/
theorem c5_witness :
    deserialize_settings
      [("a", (⟨"string", "", "", false, ""⟩ : Setting)), ("b", ⟨"bool", "", "", true, ""⟩)] =
      deserialize_settings
        [("b", (⟨"bool", "", "", true, ""⟩ : Setting)), ("a", ⟨"string", "", "", false, ""⟩)] :=
  (c5_decode_sorted_deterministic
      [("b", ⟨"bool", "", "", true, ""⟩), ("a", ⟨"string", "", "", false, ""⟩)]).2.2.2
    [("a", ⟨"string", "", "", false, ""⟩), ("b", ⟨"bool", "", "", true, ""⟩)]
    (List.Perm.swap _ _ _) (by decide)

/-- C6: a PATCH response with status 200 whose body fails to parse succeeds
with JSON null (and a 200 PATCH never produces a parse error), while GET and
POST turn the same parse failure into a `Parse` error. -/
theorem c6_patch_parse_failure_null :
    patch 200 none = .ok .null ∧
    get 200 none = .parseError ∧
    post 200 none = .parseError ∧
    ∀ parsed, ∃ v, patch 200 parsed = .ok v := by
  refine ⟨rfl, rfl, rfl, ?_⟩
  intro parsed
  cases parsed with
  | none => exact ⟨.null, rfl⟩
  | some v => exact ⟨v, rfl⟩

/-- C7: in table mode with no transformer, the cell for row `i` and field `j`
is the field's string content when the field holds a JSON string, and exactly
"N/A" when `v[field].as_str()` yields nothing (field absent, null, boolean,
number, array or object); the render is total, producing one row per array
element and one cell per requested field. -/
theorem c7_table_cell_fallback (field_names : List String) (elems : List Json)
    (i j : Nat) (hi : i < elems.length) (hj : j < field_names.length) :
    (format_value_rows field_names none (Json.arr elems)).length = elems.length ∧
    ((format_value_rows field_names none (Json.arr elems)).getD i []).length =
      field_names.length ∧
    (∀ s, jIndex (elems.getD i .null) (field_names.getD j "") = .str s →
      ((format_value_rows field_names none (Json.arr elems)).getD i []).getD j "" = s) ∧
    (asString (jIndex (elems.getD i .null) (field_names.getD j "")) = none →
      ((format_value_rows field_names none (Json.arr elems)).getD i []).getD j "" = "N/A") := by
  have hidx : elems.getD i .null = elems[i] := by
    rw [List.getD_eq_getElem?_getD, List.getElem?_eq_getElem hi]
    rfl
  have hfld : field_names.getD j "" = field_names[j] := by
    rw [List.getD_eq_getElem?_getD, List.getElem?_eq_getElem hj]
    rfl
  have hrows : format_value_rows field_names none (Json.arr elems) =
      elems.map fun v => field_names.map fun field =>
        (asString (jIndex v field)).getD "N/A" := rfl
  have hrow : (format_value_rows field_names none (Json.arr elems)).getD i [] =
      field_names.map fun field => (asString (jIndex elems[i] field)).getD "N/A" := by
    rw [hrows, List.getD_eq_getElem?_getD, List.getElem?_map, List.getElem?_eq_getElem hi]
    rfl
  have hcell : ((format_value_rows field_names none (Json.arr elems)).getD i []).getD j "" =
      (asString (jIndex elems[i] field_names[j])).getD "N/A" := by
    rw [hrow, List.getD_eq_getElem?_getD, List.getElem?_map, List.getElem?_eq_getElem hj]
    rfl
  refine ⟨?_, ?_, ?_, ?_⟩
  · rw [hrows]
    exact List.length_map _ _
  · rw [hrow]
    exact List.length_map _ _
  · intro s h
    rw [hidx, hfld] at h
    rw [hcell, h]
    rfl
  · intro h
    rw [hidx, hfld] at h
    rw [hcell, h]
    rfl

/-- Witness for C7: one element missing the "status" field renders the cell
"N/A", and an element holding a string renders that string. -/
theorem c7_witness :
    ((format_value_rows ["status"] none
        (Json.arr [Json.obj []])).getD 0 []).getD 0 "" = "N/A" ∧
    ((format_value_rows ["status"] none
        (Json.arr [Json.obj [("status", Json.str "ready")]])).getD 0 []).getD 0 "" = "ready" :=
  ⟨(c7_table_cell_fallback ["status"] [Json.obj []] 0 0 (by decide) (by decide)).2.2.2 rfl,
   (c7_table_cell_fallback ["status"] [Json.obj [("status", Json.str "ready")]] 0 0
      (by decide) (by decide)).2.2.1 "ready" rfl⟩

/-- C8: decoding a finite nonnegative wire float in range truncates toward
zero (the floor); in particular 12.9 decodes to 12, not 13. -/
theorem c8_duration_truncation (q : ℚ) (_h0 : 0 ≤ q) (hlt : ⌊q⌋ < 4294967296) :
    deserialize_float_to_u32 (.finite q) = Int.toNat ⌊q⌋ ∧
    deserialize_float_to_u32 (.finite (129/10)) = 12 ∧
    deserialize_float_to_u32 (.finite (129/10)) ≠ 13 := by
  have h12 : deserialize_float_to_u32 (.finite (129/10)) = 12 := by
    show min (Int.toNat ⌊(129/10 : ℚ)⌋) 4294967295 = 12
    rw [floor_of_twelve_point_nine]
    rfl
  refine ⟨?_, h12, ?_⟩
  · show min (Int.toNat ⌊q⌋) 4294967295 = Int.toNat ⌊q⌋
    omega
  · rw [h12]
    decide

/-- Witness for C8 at the wire value 12.9. -/
theorem c8_witness :
    deserialize_float_to_u32 (.finite (129/10)) = Int.toNat ⌊(129/10 : ℚ)⌋ ∧
    deserialize_float_to_u32 (.finite (129/10)) = 12 :=
  ⟨(c8_duration_truncation (129/10) (by norm_num)
      (by rw [floor_of_twelve_point_nine]; norm_num)).1,
   (c8_duration_truncation (129/10) (by norm_num)
      (by rw [floor_of_twelve_point_nine]; norm_num)).2.1⟩

/-- C10: the float-to-u32 cast never fails: it saturates, sending every
finite value at or above 2^32 to 4294967295, every negative value to 0, and
NaN to 0. -/
theorem c10_duration_saturation (q : ℚ) :
    (4294967296 ≤ q → deserialize_float_to_u32 (.finite q) = 4294967295) ∧
    (q < 0 → deserialize_float_to_u32 (.finite q) = 0) ∧
    deserialize_float_to_u32 .nan = 0 := by
  refine ⟨?_, ?_, rfl⟩
  · intro h
    have h2 : (4294967296 : ℤ) ≤ ⌊q⌋ := Int.le_floor.mpr (by exact_mod_cast h)
    show min (Int.toNat ⌊q⌋) 4294967295 = 4294967295
    omega
  · intro h
    have h2 : ⌊q⌋ < 0 := Int.floor_lt.mpr (by exact_mod_cast h)
    show min (Int.toNat ⌊q⌋) 4294967295 = 0
    omega

/-- Witness for C10 at 5000000000 (above 2^32) and -5. -/
theorem c10_witness :
    deserialize_float_to_u32 (.finite 5000000000) = 4294967295 ∧
    deserialize_float_to_u32 (.finite (-5)) = 0 :=
  ⟨(c10_duration_saturation 5000000000).1 (by norm_num),
   (c10_duration_saturation (-5)).2.1 (by norm_num)⟩

/-- C9: the manifest with app_id "test_app" and no settings, saved to a file
(the save prepending the document-start marker) and loaded back, is
field-for-field equal to the original; the text layer is modeled at the
document level. -/
theorem c9_manifest_round_trip :
    load_from_file (save_to_file ⟨"test_app", "", "", "", "", "", []⟩) =
      some ⟨"test_app", "", "", "", "", "", []⟩ ∧
    (save_to_file ⟨"test_app", "", "", "", "", "", []⟩).hasDocStartMarker = true :=
  ⟨rfl, rfl⟩
